import Mathlib

/-!
Verification of the BeeMapPRO flora-detection and apiary-scoring pipeline.

The definitions below are shallow embeddings of the Python sources:
`backend/python/flora_detection/utils.py` (spectral indices),
`backend/python/flora_detection/geo_cnn.py` (patch extraction, weighted
patch stitching, vegetation-health metrics, phenology), and
`backend/models/ml_model.py` (the apiary suitability model).
Numeric grids are lists of lists of rationals; fallible numpy operations
are embedded in the `Except` monad.
-/

/-- A 2-D numeric grid (a numpy 2-D array), row by row. -/
abbrev Grid : Type := List (List ℚ)

/-- Row-lengths signature of a grid: numpy's notion of shape for our lists. -/
def gridShape (g : Grid) : List ℕ := g.map List.length

/-- Elementwise NDVI with the masked-fallback policy of the source:
positions with nir+red strictly positive hold the normalized difference,
all other positions hold exactly 0 (from np.zeros_like). -/
def ndviPix (n r : ℚ) : ℚ :=
  if n + r > 0 then (n - r) / (n + r) else 0

/-- Embedding of `calculate_ndvi(nir_band, red_band)` from
flora_detection/utils.py: zeros everywhere, then the formula written through
the mask `(nir + red) > 0`. -/
def calculate_ndvi (nir red : Grid) : Grid :=
  List.zipWith (fun rowN rowR => List.zipWith ndviPix rowN rowR) nir red

/-- Entry of a grid at row i, column j, with default 0 out of bounds. -/
def gridAt (g : Grid) (i j : ℕ) : ℚ := (g.getD i []).getD j 0

/-- The length of row i of a grid, read through the shape signature. -/
lemma gridRow_length (g : Grid) (i : ℕ) :
    (g.getD i []).length = (gridShape g).getD i 0 := by
  by_cases h : i < g.length
  · rw [List.getD_eq_getElem _ _ h,
      List.getD_eq_getElem _ _ (by simpa [gridShape] using h)]
    simp [gridShape]
  · rw [List.getD_eq_default _ _ (le_of_not_lt h),
      List.getD_eq_default _ _ (by simpa [gridShape] using le_of_not_lt h)]
    rfl

/-- calculate_ndvi preserves the shape of its first argument when the two
bands agree in shape. -/
lemma calculate_ndvi_shape (nir red : Grid) (hsh : gridShape nir = gridShape red) :
    gridShape (calculate_ndvi nir red) = gridShape nir := by
  have hlen : nir.length = red.length := by
    simpa [gridShape] using congrArg List.length hsh
  apply List.ext_getElem
  · simp [gridShape, calculate_ndvi, hlen]
  · intro i h1 h2
    have hi : i < nir.length := by simpa [gridShape] using h2
    have hrow : (nir.getD i []).length = (red.getD i []).length := by
      rw [gridRow_length, gridRow_length, hsh]
    rw [List.getD_eq_getElem _ _ hi,
      List.getD_eq_getElem _ _ (hlen ▸ hi)] at hrow
    simp [gridShape, calculate_ndvi, hrow]

/-- Pointwise description of calculate_ndvi inside the common bounds. -/
lemma gridAt_calculate_ndvi (nir red : Grid) (hsh : gridShape nir = gridShape red)
    (i j : ℕ) (hi : i < nir.length) (hj : j < (nir.getD i []).length) :
    gridAt (calculate_ndvi nir red) i j = ndviPix (gridAt nir i j) (gridAt red i j) := by
  have hlen : nir.length = red.length := by
    simpa [gridShape] using congrArg List.length hsh
  have hi' : i < red.length := hlen ▸ hi
  have hrow : (nir.getD i []).length = (red.getD i []).length := by
    rw [gridRow_length, gridRow_length, hsh]
  have hj' : j < (red.getD i []).length := hrow ▸ hj
  have hizip : i < (calculate_ndvi nir red).length := by
    simp only [calculate_ndvi, List.length_zipWith]
    omega
  rw [List.getD_eq_getElem _ _ hi] at hj
  rw [List.getD_eq_getElem _ _ hi'] at hj'
  unfold gridAt
  rw [List.getD_eq_getElem _ _ hizip, List.getD_eq_getElem _ _ hi,
    List.getD_eq_getElem _ _ hi']
  have hci : (calculate_ndvi nir red)[i] = List.zipWith ndviPix nir[i] red[i] := by
    simp [calculate_ndvi]
  rw [hci]
  have hjz : j < (List.zipWith ndviPix nir[i] red[i]).length := by
    simp only [List.length_zipWith]
    omega
  rw [List.getD_eq_getElem _ _ hjz, List.getD_eq_getElem _ _ hj,
    List.getD_eq_getElem _ _ hj']
  simp [List.getElem_zipWith]

/-- C1: calculate_ndvi preserves the common shape of its two band grids;
every position with nir+red strictly positive holds (nir-red)/(nir+red),
which lies in [-1, 1] whenever both band values are non-negative, and
every position with nir+red non-positive holds exactly 0 (never NaN). -/
theorem C1_ndvi_masked_elementwise (nir red : Grid)
    (hsh : gridShape nir = gridShape red) (i j : ℕ)
    (hi : i < nir.length) (hj : j < (nir.getD i []).length) :
    gridShape (calculate_ndvi nir red) = gridShape nir ∧
    (gridAt nir i j + gridAt red i j > 0 →
      gridAt (calculate_ndvi nir red) i j =
        (gridAt nir i j - gridAt red i j) / (gridAt nir i j + gridAt red i j) ∧
      (0 ≤ gridAt nir i j → 0 ≤ gridAt red i j →
        -1 ≤ gridAt (calculate_ndvi nir red) i j ∧
          gridAt (calculate_ndvi nir red) i j ≤ 1)) ∧
    (gridAt nir i j + gridAt red i j ≤ 0 →
      gridAt (calculate_ndvi nir red) i j = 0) := by
  have hpt := gridAt_calculate_ndvi nir red hsh i j hi hj
  refine ⟨calculate_ndvi_shape nir red hsh, ?_, ?_⟩
  · intro hpos
    rw [hpt, ndviPix, if_pos hpos]
    refine ⟨rfl, ?_⟩
    intro hn hr
    constructor
    · rw [le_div_iff₀ hpos]
      linarith
    · rw [div_le_one hpos]
      linarith
  · intro hnp
    rw [hpt, ndviPix, if_neg (by linarith)]

/-- Witness for C1 at the concrete bands nir = [[1, 0]], red = [[0, 0]]. -/
theorem C1_ndvi_masked_elementwise_witness :
    gridShape [[(1 : ℚ), 0]] = gridShape [[(0 : ℚ), 0]] ∧
    (0 < ([[(1 : ℚ), 0]] : Grid).length ∧
      0 < (([[(1 : ℚ), 0]] : Grid).getD 0 []).length) ∧
    (gridShape (calculate_ndvi [[(1 : ℚ), 0]] [[(0 : ℚ), 0]]) =
        gridShape [[(1 : ℚ), 0]] ∧
    (gridAt [[(1 : ℚ), 0]] 0 0 + gridAt [[(0 : ℚ), 0]] 0 0 > 0 →
      gridAt (calculate_ndvi [[(1 : ℚ), 0]] [[(0 : ℚ), 0]]) 0 0 =
        (gridAt [[(1 : ℚ), 0]] 0 0 - gridAt [[(0 : ℚ), 0]] 0 0) /
          (gridAt [[(1 : ℚ), 0]] 0 0 + gridAt [[(0 : ℚ), 0]] 0 0) ∧
      (0 ≤ gridAt [[(1 : ℚ), 0]] 0 0 → 0 ≤ gridAt [[(0 : ℚ), 0]] 0 0 →
        -1 ≤ gridAt (calculate_ndvi [[(1 : ℚ), 0]] [[(0 : ℚ), 0]]) 0 0 ∧
          gridAt (calculate_ndvi [[(1 : ℚ), 0]] [[(0 : ℚ), 0]]) 0 0 ≤ 1)) ∧
    (gridAt [[(1 : ℚ), 0]] 0 0 + gridAt [[(0 : ℚ), 0]] 0 0 ≤ 0 →
      gridAt (calculate_ndvi [[(1 : ℚ), 0]] [[(0 : ℚ), 0]]) 0 0 = 0)) :=
  ⟨by decide, ⟨by decide, by decide⟩,
    C1_ndvi_masked_elementwise [[(1 : ℚ), 0]] [[(0 : ℚ), 0]] (by decide) 0 0
      (by decide) (by decide)⟩

/-- Trained random-forest regressor bundle as used by ml_model.py: a raw
prediction function over a scaled feature vector plus the intrinsic
feature-importance vector. -/
structure RFRegressor where
  predictRaw : List ℚ → ℚ
  featureImportances : List ℚ

/-- State of an ApiaryPotentialModel instance from backend/models/ml_model.py:
an optional fitted regressor (None before load/train), the fitted
StandardScaler parameters, and the feature-name schema. -/
structure ApiaryPotentialModel where
  model : Option RFRegressor
  scalerMean : List ℚ
  scalerScale : List ℚ
  feature_names : List String

/-- The fixed 14-name feature schema from ApiaryPotentialModel.__init__. -/
def apiaryFeatureNames : List String :=
  ["ndvi", "evi", "forest_pct", "shrubland_pct", "grassland_pct",
   "cropland_pct", "urban_pct", "water_pct", "elevation", "slope",
   "temp_avg", "rainfall_mm", "wind_speed", "water_distance_km"]

/-- np.clip on a scalar: values below lo become lo, above hi become hi. -/
def npClip (x lo hi : ℚ) : ℚ :=
  if x < lo then lo else if x > hi then hi else x

/-- StandardScaler.transform on one sample: elementwise (x - mean) / scale. -/
def scalerTransform (mean scale xs : List ℚ) : List ℚ :=
  List.zipWith (fun x s => x / s) (List.zipWith (fun x m => x - m) xs mean) scale

/-- Feature-vector assembly from predict: `features.get(name, 0.0)` for each
schema name, in schema order; missing names default to 0, extra keys of the
dictionary are never consulted. -/
def assembleFeatures (names : List String) (features : List (String × ℚ)) : List ℚ :=
  names.map (fun name => (List.lookup name features).getD 0)

/-- Embedding of ApiaryPotentialModel.predict: raises (here: Except.error)
when no model is present, otherwise assembles the feature vector in schema
order, scales it, applies the regressor, and clips the score to [0, 100]. -/
def ApiaryPotentialModel.predict (m : ApiaryPotentialModel)
    (features : List (String × ℚ)) : Except String ℚ :=
  match m.model with
  | none => .error "Modelo nao treinado. Execute _train_demo_model() primeiro."
  | some rf =>
    let X := assembleFeatures m.feature_names features
    let Xscaled := scalerTransform m.scalerMean m.scalerScale X
    .ok (npClip (rf.predictRaw Xscaled) 0 100)

/-- Embedding of ApiaryPotentialModel.get_feature_importances: raises when no
model is present, otherwise pairs schema names with the importances. -/
def ApiaryPotentialModel.featureImportancesMap (m : ApiaryPotentialModel) :
    Except String (List (String × ℚ)) :=
  match m.model with
  | none => .error "Modelo nao treinado."
  | some rf => .ok (m.feature_names.zip rf.featureImportances)

/-- C3: whenever a model is present (loaded or trained), predict returns a
score s with 0 <= s <= 100, irrespective of the regressor raw output. -/
theorem C3_predict_clamped (m : ApiaryPotentialModel) (rf : RFRegressor)
    (feats : List (String × ℚ)) (hm : m.model = some rf) :
    ∃ s, m.predict feats = .ok s ∧ 0 ≤ s ∧ s ≤ 100 := by
  refine ⟨npClip (rf.predictRaw (scalerTransform m.scalerMean m.scalerScale
    (assembleFeatures m.feature_names feats))) 0 100, ?_, ?_, ?_⟩
  · simp [ApiaryPotentialModel.predict, hm]
  · unfold npClip
    split_ifs <;> linarith
  · unfold npClip
    split_ifs <;> linarith

/-- A concrete model state whose regressor always outputs the raw score -50,
used to witness the clamping claims at an extreme output. -/
def demoRF : RFRegressor :=
  { predictRaw := fun _ => -50, featureImportances := List.replicate 14 (1 / 14) }

/-- A concrete loaded ApiaryPotentialModel built on demoRF, with identity
scaler parameters and the fixed 14-name schema. -/
def demoModelLoaded : ApiaryPotentialModel :=
  { model := some demoRF
    scalerMean := List.replicate 14 0
    scalerScale := List.replicate 14 1
    feature_names := apiaryFeatureNames }

/-- Witness for C3 at a model whose raw output is the negative value -50. -/
theorem C3_predict_clamped_witness :
    demoModelLoaded.model = some demoRF ∧
    ∃ s, demoModelLoaded.predict [] = .ok s ∧ 0 ≤ s ∧ s ≤ 100 :=
  ⟨rfl, C3_predict_clamped demoModelLoaded demoRF [] rfl⟩

/-- C5: with no model present, predict and get_feature_importances both fail
with the not-ready error; in particular predict never returns a value, so it
never silently returns zero. -/
theorem C5_not_ready_error (m : ApiaryPotentialModel)
    (feats : List (String × ℚ)) (hm : m.model = none) :
    m.predict feats =
      .error "Modelo nao treinado. Execute _train_demo_model() primeiro." ∧
    m.featureImportancesMap = .error "Modelo nao treinado." ∧
    ∀ s : ℚ, m.predict feats ≠ .ok s := by
  refine ⟨?_, ?_, ?_⟩ <;>
    simp [ApiaryPotentialModel.predict, ApiaryPotentialModel.featureImportancesMap, hm]

/-- A concrete ApiaryPotentialModel state before any load or training. -/
def demoModelEmpty : ApiaryPotentialModel :=
  { model := none
    scalerMean := []
    scalerScale := []
    feature_names := apiaryFeatureNames }

/-- Witness for C5 at the unloaded model state. -/
theorem C5_not_ready_error_witness :
    demoModelEmpty.model = none ∧
    (demoModelEmpty.predict [("ndvi", (1 : ℚ) / 2)] =
      .error "Modelo nao treinado. Execute _train_demo_model() primeiro." ∧
    demoModelEmpty.featureImportancesMap = .error "Modelo nao treinado." ∧
    ∀ s : ℚ, demoModelEmpty.predict [("ndvi", (1 : ℚ) / 2)] ≠ .ok s) :=
  ⟨rfl, C5_not_ready_error demoModelEmpty [("ndvi", (1 : ℚ) / 2)] rfl⟩

/-- Looking a key up in an association list built by pairing each list
element with a function of itself yields that function value. -/
lemma lookup_map_pair (l : List String) (g : String → ℚ) (x : String)
    (hx : x ∈ l) :
    List.lookup x (l.map (fun n => (n, g n))) = some (g x) := by
  induction l with
  | nil => simp at hx
  | cons a t ih =>
    by_cases hxa : x = a
    · subst hxa
      simp [List.lookup]
    · have hxt : x ∈ t := by
        rcases List.mem_cons.mp hx with h | h
        · exact absurd h hxa
        · exact h
      have hbeq : (x == a) = false := beq_false_of_ne hxa
      simp [List.lookup, hbeq]
      exact ih hxt

/-- C9: with a model present and the fixed 14-name schema, predict accepts
any feature dictionary (it always returns a score, no schema error); its
result only depends on the dictionary lookups at schema names (extra keys
are ignored); and it treats any dictionary exactly like the canonical
dictionary that binds each schema name to the looked-up value with default
0 — so missing names are silently replaced by 0 in schema order. -/
theorem C9_predict_schema_lenient (m : ApiaryPotentialModel) (rf : RFRegressor)
    (hm : m.model = some rf) (hn : m.feature_names = apiaryFeatureNames)
    (feats f1 f2 : List (String × ℚ))
    (hagree : ∀ n ∈ m.feature_names, List.lookup n f1 = List.lookup n f2) :
    (∃ s, m.predict feats = .ok s) ∧
    m.predict f1 = m.predict f2 ∧
    m.predict feats =
      m.predict (m.feature_names.map (fun n => (n, (List.lookup n feats).getD 0))) := by
  refine ⟨⟨npClip (rf.predictRaw (scalerTransform m.scalerMean m.scalerScale
    (assembleFeatures m.feature_names feats))) 0 100,
    by simp [ApiaryPotentialModel.predict, hm]⟩, ?_, ?_⟩
  · have hasm : assembleFeatures m.feature_names f1 = assembleFeatures m.feature_names f2 := by
      unfold assembleFeatures
      exact List.map_congr_left (fun n hn' => by rw [hagree n hn'])
    simp [ApiaryPotentialModel.predict, hm, hasm]
  · have hasm : assembleFeatures m.feature_names
        (m.feature_names.map (fun n => (n, (List.lookup n feats).getD 0))) =
        assembleFeatures m.feature_names feats := by
      unfold assembleFeatures
      refine List.map_congr_left (fun n hn' => ?_)
      rw [lookup_map_pair _ _ _ hn']
      rfl
    simp [ApiaryPotentialModel.predict, hm, hasm]

/-- Witness for C9: the loaded demo model, a dictionary holding only an extra
non-schema key, and the empty dictionary. -/
theorem C9_predict_schema_lenient_witness :
    demoModelLoaded.model = some demoRF ∧
    demoModelLoaded.feature_names = apiaryFeatureNames ∧
    (∀ n ∈ demoModelLoaded.feature_names,
      List.lookup n [("bogus", (5 : ℚ))] = List.lookup n ([] : List (String × ℚ))) ∧
    ((∃ s, demoModelLoaded.predict [("ndvi", (7 : ℚ))] = .ok s) ∧
    demoModelLoaded.predict [("bogus", (5 : ℚ))] =
      demoModelLoaded.predict ([] : List (String × ℚ)) ∧
    demoModelLoaded.predict [("ndvi", (7 : ℚ))] =
      demoModelLoaded.predict (demoModelLoaded.feature_names.map
        (fun n => (n, (List.lookup n [("ndvi", (7 : ℚ))]).getD 0)))) :=
  ⟨rfl, rfl, by decide,
    C9_predict_schema_lenient demoModelLoaded demoRF rfl rfl
      [("ndvi", (7 : ℚ))] [("bogus", (5 : ℚ))] [] (by decide)⟩

/-- The valid-NDVI filter shared by calculate_vegetation_health and
estimate_flowering_stage: flatten the grid and keep values in [-1, 1]. -/
def validVals (g : Grid) : List ℚ :=
  g.flatten.filter (fun x => decide (-1 ≤ x) && decide (x ≤ 1))

/-- np.min over a 1-D array: numpy raises ValueError on an empty array
(zero-size reduction), embedded as Except.error. -/
def npMin (l : List ℚ) : Except String ℚ :=
  match l with
  | [] => .error "zero-size array to reduction operation minimum which has no identity"
  | x :: xs => .ok (xs.foldl min x)

/-- np.max over a 1-D array, failing on the empty array like np.min. -/
def npMax (l : List ℚ) : Except String ℚ :=
  match l with
  | [] => .error "zero-size array to reduction operation maximum which has no identity"
  | x :: xs => .ok (xs.foldl max x)

/-- np.mean over a 1-D array (sum divided by length; rational division by the
zero length of an empty array yields the junk value 0 where numpy yields NaN,
reached by no theorem below). -/
def meanQ (l : List ℚ) : ℚ := l.sum / l.length

/-- Insertion into a sorted list, for the median computation. -/
def insertSorted (x : ℚ) : List ℚ → List ℚ
  | [] => [x]
  | y :: ys => if x ≤ y then x :: y :: ys else y :: insertSorted x ys

/-- Insertion sort of a list of rationals. -/
def sortQ : List ℚ → List ℚ
  | [] => []
  | x :: xs => insertSorted x (sortQ xs)

/-- np.median: middle element of the sorted data for odd length, average of
the two middle elements for even length. -/
def medianQ (l : List ℚ) : ℚ :=
  let s := sortQ l
  let n := s.length
  if n % 2 = 1 then s.getD (n / 2) 0
  else (s.getD (n / 2 - 1) 0 + s.getD (n / 2) 0) / 2

/-- The square of np.std: population variance (mean squared deviation). The
source stores the square root of this quantity; the claims below never
inspect its value, so the embedding keeps the rational square. -/
def varQ (l : List ℚ) : ℚ :=
  (l.map (fun x => (x - meanQ l) ^ 2)).sum / l.length

/-- Percentage of entries satisfying a predicate, as in
`np.sum(cond) / ndvi_valid.size * 100`. -/
def pctWhere (l : List ℚ) (p : ℚ → Bool) : ℚ :=
  ((l.filter p).length : ℚ) / l.length * 100

/-- The metrics dictionary produced by calculate_vegetation_health. -/
structure HealthMetrics where
  min_ndvi : ℚ
  max_ndvi : ℚ
  average_ndvi : ℚ
  median_ndvi : ℚ
  var_ndvi : ℚ
  unhealthy : ℚ
  moderate : ℚ
  healthy : ℚ
  very_healthy : ℚ
  exceptional : ℚ

/-- Embedding of calculate_vegetation_health from geo_cnn.py: filter to the
valid range, then compute min/max/mean/median/spread and the five health
bucket percentages. np.min is evaluated first while building the metrics
dictionary, so an empty valid set fails there, exactly as in numpy. -/
def calculate_vegetation_health (ndvi : Grid) : Except String HealthMetrics := do
  let valid := validVals ndvi
  let mn ← npMin valid
  let mx ← npMax valid
  .ok
    { min_ndvi := mn
      max_ndvi := mx
      average_ndvi := meanQ valid
      median_ndvi := medianQ valid
      var_ndvi := varQ valid
      unhealthy := pctWhere valid (fun x => decide (x < 1 / 5))
      moderate := pctWhere valid (fun x => decide (1 / 5 ≤ x) && decide (x < 2 / 5))
      healthy := pctWhere valid (fun x => decide (2 / 5 ≤ x) && decide (x < 3 / 5))
      very_healthy := pctWhere valid (fun x => decide (3 / 5 ≤ x) && decide (x < 4 / 5))
      exceptional := pctWhere valid (fun x => decide (4 / 5 ≤ x)) }

/-- C6: on a grid with no pixel in [-1, 1] the health summary fails with the
explicit zero-size reduction error instead of returning any metrics record. -/
theorem C6_vegetation_health_empty_error (ndvi : Grid)
    (h : validVals ndvi = []) :
    calculate_vegetation_health ndvi =
      .error "zero-size array to reduction operation minimum which has no identity" := by
  simp only [calculate_vegetation_health, h, npMin]
  rfl

/-- Witness for C6 at the grid [[2]], whose only pixel is outside [-1, 1]. -/
theorem C6_vegetation_health_empty_error_witness :
    validVals [[(2 : ℚ)]] = [] ∧
    calculate_vegetation_health [[(2 : ℚ)]] =
      .error "zero-size array to reduction operation minimum which has no identity" :=
  ⟨by decide, C6_vegetation_health_empty_error [[(2 : ℚ)]] (by decide)⟩

/-- A per-species flowering entry: stage label and flowering percentage. -/
structure StageInfo where
  stage : String
  flowering_percent : ℚ
deriving DecidableEq

/-- The flowering information dictionary of estimate_flowering_stage. -/
structure FloweringInfo where
  season : String
  average_ndvi : ℚ
  average_evi : ℚ
  rosemary : StageInfo
  heather : StageInfo
  eucalyptus : StageInfo

/-- Season bucketing of estimate_flowering_stage: months 3-5 spring, 6-8
summer, 9-11 autumn, everything else winter. -/
def seasonOf (month : ℕ) : String :=
  if 3 ≤ month ∧ month ≤ 5 then "spring"
  else if 6 ≤ month ∧ month ≤ 8 then "summer"
  else if 9 ≤ month ∧ month ≤ 11 then "autumn"
  else "winter"

/-- Embedding of estimate_flowering_stage from geo_cnn.py, with the calendar
date already reduced to its month. The per-species entries transcribe the
species_info table of the source, indexed at the computed season. -/
def estimate_flowering_stage (month : ℕ) (ndvi evi : Grid) : FloweringInfo :=
  let season := seasonOf month
  let avg_ndvi := meanQ (validVals ndvi)
  let avg_evi := meanQ (validVals evi)
  let rosemary : StageInfo :=
    if season = "spring" then
      ⟨if avg_ndvi > 1 / 2 then "peak" else "early",
        if avg_ndvi > 1 / 2 then 80 else 40⟩
    else if season = "summer" then
      ⟨if avg_ndvi > 2 / 5 then "late" else "post",
        if avg_ndvi > 2 / 5 then 30 else 10⟩
    else if season = "autumn" then ⟨"dormant", 0⟩
    else
      ⟨if month = 2 ∧ avg_ndvi > 3 / 10 then "pre" else "dormant",
        if month = 2 ∧ avg_ndvi > 3 / 10 then 5 else 0⟩
  let heather : StageInfo :=
    if season = "spring" then ⟨"pre", 10⟩
    else if season = "summer" then
      ⟨if month = 8 then "early" else "pre", if month = 8 then 30 else 10⟩
    else if season = "autumn" then
      ⟨if month = 9 then "peak" else "late", if month = 9 then 80 else 40⟩
    else ⟨"dormant", 0⟩
  let eucalyptus : StageInfo :=
    if season = "spring" then ⟨"dormant", 0⟩
    else if season = "summer" then ⟨"dormant", 0⟩
    else if season = "autumn" then
      ⟨if month = 11 then "pre" else "dormant", if month = 11 then 10 else 0⟩
    else
      ⟨if month = 12 ∨ month = 1 then "peak" else "late",
        if month = 12 ∨ month = 1 then 70 else 30⟩
  { season := season
    average_ndvi := avg_ndvi
    average_evi := avg_evi
    rosemary := rosemary
    heather := heather
    eucalyptus := eucalyptus }

/-- C7: in month 9 (September) the estimate is season autumn and the
rosemary entry is dormant with flowering percentage 0, for every NDVI/EVI
grid pair with at least one valid value in each grid. -/
theorem C7_september_rosemary_dormant (ndvi evi : Grid)
    (h1 : validVals ndvi ≠ []) (h2 : validVals evi ≠ []) :
    (estimate_flowering_stage 9 ndvi evi).season = "autumn" ∧
    (estimate_flowering_stage 9 ndvi evi).rosemary = ⟨"dormant", 0⟩ :=
  ⟨rfl, rfl⟩

/-- Witness for C7 at the constant grids [[1]]. -/
theorem C7_september_rosemary_dormant_witness :
    validVals [[(1 : ℚ)]] ≠ [] ∧
    ((estimate_flowering_stage 9 [[(1 : ℚ)]] [[(1 : ℚ)]]).season = "autumn" ∧
    (estimate_flowering_stage 9 [[(1 : ℚ)]] [[(1 : ℚ)]]).rosemary =
      ⟨"dormant", 0⟩) :=
  ⟨by decide,
    C7_september_rosemary_dormant [[(1 : ℚ)]] [[(1 : ℚ)]]
      (by decide) (by decide)⟩

/-- C8 counterexample: months 9 and 10 both map to autumn, yet the heather
entry differs between them (peak at 80 percent in month 9, late at 40
percent in month 10) for identical NDVI/EVI grids, so the non-rosemary
entries do not depend on the season alone. -/
theorem C8_species_season_only_cex :
    seasonOf 9 = seasonOf 10 ∧
    (estimate_flowering_stage 9 [[(1 : ℚ) / 2]] [[(1 : ℚ) / 2]]).heather ≠
      (estimate_flowering_stage 10 [[(1 : ℚ) / 2]] [[(1 : ℚ) / 2]]).heather := by
  exact ⟨rfl, by decide⟩

/-- C8 amended: for every species other than rosemary (heather, eucalyptus)
the returned stage and flowering percentage depend only on the month of the
input date, never on the NDVI/EVI grids: two calls sharing a month agree on
the non-rosemary entries for arbitrary grid pairs. -/
theorem C8_species_month_only (month : ℕ) (n1 e1 n2 e2 : Grid) :
    (estimate_flowering_stage month n1 e1).heather =
      (estimate_flowering_stage month n2 e2).heather ∧
    (estimate_flowering_stage month n1 e1).eucalyptus =
      (estimate_flowering_stage month n2 e2).eucalyptus :=
  ⟨rfl, rfl⟩

/-- Python `range(0, stop, step)` for integer stop and positive step, as the
list of its natural-number elements (empty for non-positive stop; the source
never calls it with step 0, embedded as empty there too). -/
def pyRange (stop : ℤ) (step : ℕ) : List ℕ :=
  if stop ≤ 0 ∨ step = 0 then []
  else (List.range ((stop - 1).toNat / step + 1)).map (fun k => k * step)

/-- The row-major top-left patch offsets of predict_image and
prepare_sentinel_data: `for i in range(0, h - patch_size + 1, stride)` nested
over `for j in range(0, w - patch_size + 1, stride)`, with Python integer
arithmetic on the stop expressions. -/
def patchOffsets (h w ps stride : ℕ) : List (ℕ × ℕ) :=
  (pyRange ((h : ℤ) - ps + 1) stride).flatMap
    (fun i => (pyRange ((w : ℤ) - ps + 1) stride).map (fun j => (i, j)))

/-- Every element of pyRange is strictly below the stop value. -/
lemma mem_pyRange {x : ℕ} {stop : ℤ} {step : ℕ} (hx : x ∈ pyRange stop step) :
    (x : ℤ) < stop := by
  unfold pyRange at hx
  split at hx
  · simp at hx
  · rename_i hg
    push_neg at hg
    obtain ⟨hpos, hstep⟩ := hg
    obtain ⟨k, hk, rfl⟩ := List.mem_map.mp hx
    have hk' : k ≤ (stop - 1).toNat / step := by
      have := List.mem_range.mp hk
      omega
    have h1 : k * step ≤ ((stop - 1).toNat / step) * step :=
      Nat.mul_le_mul_right step hk'
    have h2 : ((stop - 1).toNat / step) * step ≤ (stop - 1).toNat :=
      Nat.div_mul_le_self _ _
    have h3 : k * step ≤ (stop - 1).toNat := le_trans h1 h2
    omega

/-- C4: over a 128 by 128 image with patch size 64 and stride 32, the patch
offsets are exactly the nine row-major positions (0,0) through (64,64); and
in general every produced offset keeps the whole patch window inside the
image bounds, so out-of-bounds windows are dropped, never padded. -/
theorem C4_patch_offsets_grid (h w ps stride : ℕ) (hs : 0 < stride)
    (p : ℕ × ℕ) (hp : p ∈ patchOffsets h w ps stride) :
    patchOffsets 128 128 64 32 =
      [(0, 0), (0, 32), (0, 64), (32, 0), (32, 32), (32, 64),
       (64, 0), (64, 32), (64, 64)] ∧
    p.1 + ps ≤ h ∧ p.2 + ps ≤ w := by
  refine ⟨by decide, ?_⟩
  unfold patchOffsets at hp
  obtain ⟨i, hi, hp2⟩ := List.mem_flatMap.mp hp
  obtain ⟨j, hj, rfl⟩ := List.mem_map.mp hp2
  have h1 := mem_pyRange hi
  have h2 := mem_pyRange hj
  exact ⟨by simp only []; omega, by simp only []; omega⟩

/-- Witness for C4 at the 128 by 128 configuration and its first offset. -/
theorem C4_patch_offsets_grid_witness :
    0 < 32 ∧ ((0, 0) ∈ patchOffsets 128 128 64 32) ∧
    (patchOffsets 128 128 64 32 =
      [(0, 0), (0, 32), (0, 64), (32, 0), (32, 32), (32, 64),
       (64, 0), (64, 32), (64, 64)] ∧
    0 + 64 ≤ 128 ∧ 0 + 64 ≤ 128) :=
  ⟨by decide, by decide,
    C4_patch_offsets_grid 128 128 64 32 (by decide) (0, 0) (by decide)⟩

/-- A full-resolution class map, as a function from pixel coordinates. -/
abbrev ClassMap := ℕ → ℕ → ℕ

/-- The stitching state of the claim-side model: per pixel, the class
assigned so far, or none while the pixel is untouched. -/
abbrev AssignMap := ℕ → ℕ → Option ℕ

/-- Pointwise array store `output[i, j] = v` on a class map. -/
def mapUpdate (out : ClassMap) (i j v : ℕ) : ClassMap :=
  fun a b => if a = i ∧ b = j then v else out a b

/-- Pointwise store of an assigned class on the claim-side state. -/
def assignUpdate (st : AssignMap) (i j v : ℕ) : AssignMap :=
  fun a b => if a = i ∧ b = j then some v else st a b

/-- The center-proximity weight of predict_image:
`1.0 - (abs(di - patch_size/2) + abs(dj - patch_size/2)) / patch_size`. -/
def patchWeight (di dj ps : ℕ) : ℚ :=
  1 - (|(di : ℚ) - ps / 2| + |(dj : ℚ) - ps / 2|) / ps

/-- One patch of the stitch loop in predict_image: for every in-patch offset
(di, dj) in row-major order, write the patch class at the covered pixel when
the current value there is 0 or the weight exceeds 1/2. -/
def writePatch (h w ps i j pred : ℕ) (out : ClassMap) : ClassMap :=
  (List.range ps).foldl
    (fun out1 di =>
      (List.range ps).foldl
        (fun out2 dj =>
          if (i + di < h ∧ j + dj < w) ∧
             (out2 (i + di) (j + dj) = 0 ∨ patchWeight di dj ps > 1 / 2)
          then mapUpdate out2 (i + di) (j + dj) pred
          else out2)
        out1)
    out

/-- The stitch step of predict_image: starting from the all-zero output
image, process the (offset, predicted class) pairs in order. -/
def stitchCode (h w ps : ℕ) (pps : List ((ℕ × ℕ) × ℕ)) : ClassMap :=
  pps.foldl (fun out pp => writePatch h w ps pp.1.1 pp.1.2 pp.2 out) (fun _ _ => 0)

/-- Modelled from the claim wording of C2 (first-writer wins): a later patch
may write a covered pixel only while the pixel was never assigned by any
earlier patch, or when its own weight exceeds 1/2. -/
def writePatchSpec (h w ps i j pred : ℕ) (st : AssignMap) : AssignMap :=
  (List.range ps).foldl
    (fun st1 di =>
      (List.range ps).foldl
        (fun st2 dj =>
          if (i + di < h ∧ j + dj < w) ∧
             (st2 (i + di) (j + dj) = none ∨ patchWeight di dj ps > 1 / 2)
          then assignUpdate st2 (i + di) (j + dj) pred
          else st2)
        st1)
    st

/-- Modelled from the claim wording of C2: stitch with first-writer-wins
semantics, pixels covered by no patch defaulting to class 0. -/
def stitchSpec (h w ps : ℕ) (pps : List ((ℕ × ℕ) × ℕ)) : ClassMap :=
  fun a b =>
    ((pps.foldl (fun st pp => writePatchSpec h w ps pp.1.1 pp.1.2 pp.2 st)
      (fun _ _ => none)) a b).getD 0

/-- The amended stitching policy: a later covering patch overwrites a pixel
exactly when the pixel is unassigned, currently holds the background class
0, or the later patch weight exceeds 1/2. -/
def writePatchAmd (h w ps i j pred : ℕ) (st : AssignMap) : AssignMap :=
  (List.range ps).foldl
    (fun st1 di =>
      (List.range ps).foldl
        (fun st2 dj =>
          if (i + di < h ∧ j + dj < w) ∧
             (st2 (i + di) (j + dj) = none ∨ st2 (i + di) (j + dj) = some 0 ∨
              patchWeight di dj ps > 1 / 2)
          then assignUpdate st2 (i + di) (j + dj) pred
          else st2)
        st1)
    st

/-- Stitch under the amended policy, uncovered pixels defaulting to 0. -/
def stitchAmd (h w ps : ℕ) (pps : List ((ℕ × ℕ) × ℕ)) : ClassMap :=
  fun a b =>
    ((pps.foldl (fun st pp => writePatchAmd h w ps pp.1.1 pp.1.2 pp.2 st)
      (fun _ _ => none)) a b).getD 0

/-- Weight values of a 2 by 2 patch at local offset (0, 0). -/
lemma patchWeight00 : patchWeight 0 0 2 = 0 := by norm_num [patchWeight]

/-- Weight values of a 2 by 2 patch at local offset (0, 1). -/
lemma patchWeight01 : patchWeight 0 1 2 = 1 / 2 := by norm_num [patchWeight]

/-- Weight values of a 2 by 2 patch at local offset (1, 0). -/
lemma patchWeight10 : patchWeight 1 0 2 = 1 / 2 := by norm_num [patchWeight]

/-- Weight values of a 2 by 2 patch at local offset (1, 1). -/
lemma patchWeight11 : patchWeight 1 1 2 = 1 := by norm_num [patchWeight]

/-- Applied form of assignUpdate, for rewriting concrete stitch states. -/
lemma assignUpdate_eval (st : AssignMap) (i j v a b : ℕ) :
    assignUpdate st i j v a b = if a = i ∧ b = j then some v else st a b := rfl

/-- Applied form of mapUpdate, for rewriting concrete stitch states. -/
lemma mapUpdate_eval (out : ClassMap) (i j v a b : ℕ) :
    mapUpdate out i j v a b = if a = i ∧ b = j then v else out a b := rfl

/-- C2 counterexample: on a 2 by 3 image with 2 by 2 patches at offsets
(0,0) then (0,1) predicting classes 0 then 2, pixel (0,1) was assigned class
0 by the earlier patch and the later covering patch reaches it with weight
0, not above 1/2; first-writer-wins stitching keeps 0, but the code
overwrites it with 2 because its test is on the stored value being 0, not
on the pixel being unassigned. -/
theorem C2_stitch_first_writer_cex :
    patchOffsets 2 3 2 1 = [(0, 0), (0, 1)] ∧
    stitchSpec 2 3 2 [((0, 0), 0), ((0, 1), 2)] 0 1 = 0 ∧
    stitchCode 2 3 2 [((0, 0), 0), ((0, 1), 2)] 0 1 = 2 ∧
    ¬ patchWeight 0 0 2 > 1 / 2 := by
  refine ⟨by decide, ?_, ?_, by rw [patchWeight00]; norm_num⟩
  · simp only [stitchSpec, writePatchSpec, List.foldl, List.range, List.range.loop]
    norm_num [ite_apply, assignUpdate_eval,
      patchWeight00, patchWeight01, patchWeight10, patchWeight11]
    decide
  · simp only [stitchCode, writePatch, List.foldl, List.range, List.range.loop]
    norm_num [ite_apply, mapUpdate_eval,
      patchWeight00, patchWeight01, patchWeight10, patchWeight11]

/-- Two foldl computations related stepwise stay related. -/
lemma foldl_rel {α β γ : Type} (R : α → β → Prop) (f : α → γ → α) (g : β → γ → β)
    (hstep : ∀ a b c, R a b → R (f a c) (g b c)) :
    ∀ (l : List γ) a b, R a b → R (l.foldl f a) (l.foldl g b) := by
  intro l
  induction l with
  | nil => intro a b hr; exact hr
  | cons x t ih => intro a b hr; exact ih _ _ (hstep a b x hr)

/-- The simulation relation between the amended assignment state and the
code output image: reading with default 0 agrees everywhere. -/
def StRel (st : AssignMap) (out : ClassMap) : Prop :=
  ∀ a b, (st a b).getD 0 = out a b

/-- One patch of the amended stitch simulates one patch of the code. -/
lemma writePatchAmd_rel (h w ps i j pred : ℕ) (st : AssignMap) (out : ClassMap)
    (hr : StRel st out) :
    StRel (writePatchAmd h w ps i j pred st) (writePatch h w ps i j pred out) := by
  unfold writePatchAmd writePatch
  refine foldl_rel StRel _ _ ?_ _ _ _ hr
  intro st1 out1 di hr1
  refine foldl_rel StRel _ _ ?_ _ _ _ hr1
  intro st2 out2 dj hr2
  have hcond : (st2 (i + di) (j + dj) = none ∨ st2 (i + di) (j + dj) = some 0 ∨
      patchWeight di dj ps > 1 / 2) ↔
      (out2 (i + di) (j + dj) = 0 ∨ patchWeight di dj ps > 1 / 2) := by
    rw [← hr2 (i + di) (j + dj)]
    cases hst : st2 (i + di) (j + dj) <;> simp [hst]
  by_cases hb : i + di < h ∧ j + dj < w
  · by_cases hc : out2 (i + di) (j + dj) = 0 ∨ patchWeight di dj ps > 1 / 2
    · rw [if_pos ⟨hb, hcond.mpr hc⟩, if_pos ⟨hb, hc⟩]
      intro a b
      unfold assignUpdate mapUpdate
      by_cases hab : a = i + di ∧ b = j + dj
      · rw [if_pos hab, if_pos hab]; rfl
      · rw [if_neg hab, if_neg hab]; exact hr2 a b
    · rw [if_neg (fun hk => hc (hcond.mp hk.2)), if_neg (fun hk => hc hk.2)]
      exact hr2
  · rw [if_neg (fun hk => hb hk.1), if_neg (fun hk => hb hk.1)]
    exact hr2

/-- C2 amended: the stitch step of predict_image behaves exactly like the
amended policy: a pixel holding a nonzero class keeps it against any later
covering patch of weight at most 1/2; a pixel that is unassigned or holds
class 0 (whether by default or assigned by an earlier patch) is overwritten
by any later covering patch; pixels covered by no patch stay class 0. -/
theorem C2_stitch_zero_or_heavy_overwrite (h w ps : ℕ)
    (pps : List ((ℕ × ℕ) × ℕ)) (a b : ℕ) :
    stitchCode h w ps pps a b = stitchAmd h w ps pps a b := by
  unfold stitchCode stitchAmd
  have hsim := foldl_rel StRel
    (fun st pp => writePatchAmd h w ps pp.1.1 pp.1.2 pp.2 st)
    (fun out pp => writePatch h w ps pp.1.1 pp.1.2 pp.2 out)
    (fun st out pp hr => writePatchAmd_rel h w ps pp.1.1 pp.1.2 pp.2 st out hr)
    pps (fun _ _ => none) (fun _ _ => 0) (fun _ _ => rfl)
  exact (hsim a b).symm

/-- Scanner for np.argmax: tracks best value, its index, and the index of
the next element; a strict comparison keeps the first maximal element. -/
def argmaxGo : List ℚ → ℚ → ℕ → ℕ → ℕ
  | [], _, bi, _ => bi
  | y :: ys, bv, bi, ci =>
    if y > bv then argmaxGo ys y ci (ci + 1) else argmaxGo ys bv bi (ci + 1)

/-- np.argmax over a 1-D array: index of the first maximal element (0 on the
empty array, which numpy rejects; no theorem below reaches that case). -/
def argmaxQ : List ℚ → ℕ
  | [] => 0
  | x :: xs => argmaxGo xs x 0 1

/-- The argmax scanner returns an index below the running bound. -/
lemma argmaxGo_lt : ∀ (ys : List ℚ) (bv : ℚ) (bi ci : ℕ), bi < ci →
    argmaxGo ys bv bi ci < ci + ys.length := by
  intro ys
  induction ys with
  | nil => intro bv bi ci h; simpa [argmaxGo] using h
  | cons y t ih =>
    intro bv bi ci h
    simp only [argmaxGo, List.length_cons]
    split_ifs with hy
    · have := ih y ci (ci + 1) (Nat.lt_succ_self ci)
      omega
    · have := ih bv bi (ci + 1) (by omega)
      omega

/-- np.argmax of a nonempty array is a valid index. -/
lemma argmaxQ_lt (l : List ℚ) (hl : l ≠ []) : argmaxQ l < l.length := by
  match l with
  | [] => exact absurd rfl hl
  | x :: xs =>
    have := argmaxGo_lt xs x 0 1 (by omega)
    simp only [argmaxQ, List.length_cons]
    omega

/-- A foldl preserves a predicate preserved by every step. -/
lemma foldl_pres {α γ : Type} (P : α → Prop) (f : α → γ → α)
    (hstep : ∀ a c, P a → P (f a c)) :
    ∀ (l : List γ) a, P a → P (l.foldl f a) := by
  intro l
  induction l with
  | nil => intro a h; exact h
  | cons x t ih => intro a h; exact ih _ (hstep a x h)

/-- A foldl preserves a predicate preserved by steps on list members. -/
lemma foldl_mem_inv {α γ : Type} (P : α → Prop) (f : α → γ → α) :
    ∀ (l : List γ) a, P a → (∀ b c, c ∈ l → P b → P (f b c)) → P (l.foldl f a) := by
  intro l
  induction l with
  | nil => intro a h _; exact h
  | cons x t ih =>
    intro a h hstep
    exact ih _ (hstep a x (List.mem_cons_self x t) h)
      (fun b c hc hb => hstep b c (List.mem_cons_of_mem x hc) hb)

/-- Writing one patch only ever stores the patch class, so a class map whose
values all lie in {0} union preds keeps that property for any pred in preds. -/
lemma writePatch_values (h w ps i j pred : ℕ) (out : ClassMap) (preds : List ℕ)
    (hpred : pred ∈ preds) (hout : ∀ a b, out a b = 0 ∨ out a b ∈ preds) :
    ∀ a b, writePatch h w ps i j pred out a b = 0 ∨
      writePatch h w ps i j pred out a b ∈ preds := by
  unfold writePatch
  refine foldl_pres (fun o : ClassMap => ∀ a b, o a b = 0 ∨ o a b ∈ preds) _ ?_ _ _ hout
  intro out1 di hout1
  refine foldl_pres (fun o : ClassMap => ∀ a b, o a b = 0 ∨ o a b ∈ preds) _ ?_ _ _ hout1
  intro out2 dj hout2
  split_ifs with hc
  · intro a b
    unfold mapUpdate
    split_ifs with hab
    · exact Or.inr hpred
    · exact hout2 a b
  · exact hout2

/-- Every pixel of the stitched map holds 0 or one of the patch classes. -/
lemma stitchCode_values (h w ps : ℕ) (pps : List ((ℕ × ℕ) × ℕ)) (a b : ℕ) :
    stitchCode h w ps pps a b = 0 ∨ stitchCode h w ps pps a b ∈ pps.map Prod.snd := by
  unfold stitchCode
  refine foldl_mem_inv (fun o : ClassMap => ∀ a b, o a b = 0 ∨ o a b ∈ pps.map Prod.snd)
    _ pps _ (fun _ _ => Or.inl rfl) ?_ a b
  intro out pp hpp hout
  exact writePatch_values h w ps pp.1.1 pp.1.2 pp.2 out _
    (List.mem_map_of_mem Prod.snd hpp) hout

/-- Embedding of GeoCNN.predict_image on an image of dimensions h by w, with
the trained classifier abstracted as the per-offset class-probability vector
probs: extract patch offsets, take np.argmax of each patch's probabilities,
and stitch. When no patch fits the image, the source crashes at
np.transpose on the empty patch array before any prediction
(ValueError, axes do not match the array), embedded as Except.error. -/
def predictImageE (h w ps stride : ℕ) (probs : ℕ × ℕ → List ℚ) :
    Except String ClassMap :=
  let offs := patchOffsets h w ps stride
  if offs = [] then .error "axes dont match array"
  else .ok (stitchCode h w ps (offs.map (fun o => (o, argmaxQ (probs o)))))

/-- The stitched class map materialized as an h by w image (list of rows),
the shape in which predict_image returns it. -/
def classMapE (h w ps stride : ℕ) (probs : ℕ × ℕ → List ℚ) :
    Except String (List (List ℕ)) :=
  (predictImageE h w ps stride probs).map
    (fun f => (List.range h).map (fun i => (List.range w).map (fun j => f i j)))

/-- C10 counterexample: on a 1 by 1 image (with the default patch size 64
and stride 32, a classifier outputting 4 class probabilities everywhere,
hence a positive class count), predict_image does not return a class map of
the image shape: no patch fits, and the call fails at the transpose of the
empty patch array. -/
theorem C10_class_map_empty_cex :
    classMapE 1 1 64 32 (fun _ => [1, 0, 0, 0]) = .error "axes dont match array" ∧
    0 < 4 ∧ ((fun _ : ℕ × ℕ => [(1 : ℚ), 0, 0, 0]) (0, 0)).length = 4 := by
  refine ⟨?_, by decide, rfl⟩
  rfl

/-- C10 amended: whenever at least one patch fits the image, predict_image
returns a class map whose shape is exactly (h, w) and whose every entry is
an integer below the class count — either the default background 0 or an
argmax over a patch probability vector of length numClasses. -/
theorem C10_class_map_shape_range (h w ps stride numClasses : ℕ)
    (probs : ℕ × ℕ → List ℚ) (hnc : 0 < numClasses)
    (hlen : ∀ o, (probs o).length = numClasses)
    (hne : patchOffsets h w ps stride ≠ []) :
    ∃ m, classMapE h w ps stride probs = .ok m ∧
      m.length = h ∧ (∀ row ∈ m, row.length = w) ∧
      ∀ row ∈ m, ∀ v ∈ row, v < numClasses := by
  refine ⟨(List.range h).map (fun i => (List.range w).map (fun j =>
      stitchCode h w ps ((patchOffsets h w ps stride).map
        (fun o => (o, argmaxQ (probs o)))) i j)), ?_, ?_, ?_, ?_⟩
  · simp [classMapE, predictImageE, if_neg hne, Except.map]
  · simp
  · intro row hrow
    obtain ⟨i, _, rfl⟩ := List.mem_map.mp hrow
    simp
  · intro row hrow v hv
    obtain ⟨i, _, rfl⟩ := List.mem_map.mp hrow
    obtain ⟨j, _, rfl⟩ := List.mem_map.mp hv
    rcases stitchCode_values h w ps _ i j with h0 | hmem
    · rw [h0]
      exact hnc
    · rw [List.map_map] at hmem
      obtain ⟨o, ho, heq⟩ := List.mem_map.mp hmem
      have hplen : (probs o).length = numClasses := hlen o
      have hlt : argmaxQ (probs o) < (probs o).length := by
        refine argmaxQ_lt _ ?_
        intro hnil
        rw [hnil] at hplen
        simp at hplen
        omega
      rw [← heq]
      simp only [Function.comp] at *
      omega

/-- Witness for C10 at a 2 by 2 image, 2 by 2 patches, stride 1, and a
4-class probability vector constant over patches. -/
theorem C10_class_map_shape_range_witness :
    0 < 4 ∧ (∀ o : ℕ × ℕ, ((fun _ : ℕ × ℕ => [(1 : ℚ), 0, 0, 0]) o).length = 4) ∧
    patchOffsets 2 2 2 1 ≠ [] ∧
    (∃ m, classMapE 2 2 2 1 (fun _ => [(1 : ℚ), 0, 0, 0]) = .ok m ∧
      m.length = 2 ∧ (∀ row ∈ m, row.length = 2) ∧
      ∀ row ∈ m, ∀ v ∈ row, v < 4) :=
  ⟨by decide, fun _ => rfl, by decide,
    C10_class_map_shape_range 2 2 2 1 4 (fun _ => [(1 : ℚ), 0, 0, 0])
      (by decide) (fun _ => rfl) (by decide)⟩
